import Mathlib

/-!
# Verification of the attendee_fastapi core against its specification

This file gives a shallow embedding of the parts of the repository that the
specification's testable properties talk about: the organization credit
ledger, the bot lifecycle state machine, the webhook delivery dispatcher,
the organization record with its soft-delete semantics, and the admin-ui
HTTP client's response interceptor.

The admin-ui client code (axios interceptors, service wrappers) and the
TypeScript data declarations (`admin-ui/src/api/types.ts`) are present in
the repository and are embedded from that source.  The backend core —
credit ledger, bot state machine, webhook dispatcher — is not present in
the repository's files (its TESTING_NOTES list the webhook delivery system,
bot controller logic and credit handling as planned work); those components
are modelled from the specification's words, and each such definition is
marked `Modelled from the spec:` in its doc comment.
-/

/-! ## Credit Ledger (spec §4.1)

Modelled from the spec: the Credit Ledger component is not implemented in
the repository (only admin-ui service wrappers that call it over HTTP
exist), so reserve/charge/release are modelled from §4.1.  The spec
serializes all mutations of one organization's balance (per-org
single-writer), so an interleaving of concurrent calls is embedded as a
sequence of operations applied to the organization's ledger state. -/

/-- Modelled from the spec: a Credit Reservation (§3) — an ephemeral record
holding an amount of centicredits; `isOpen` is true until the reservation is
resolved by charge or release. -/
structure Reservation where
  rid : Nat
  amount : Nat
  isOpen : Bool
deriving DecidableEq, Repr

/-- Modelled from the spec: one organization's ledger state — its balance in
centicredits (a `Nat`, so the ≥ 0 representation invariant is structural),
its reservations, and the next fresh reservation id. -/
structure LedgerState where
  balance : Nat
  reservations : List Reservation
  nextId : Nat
deriving DecidableEq, Repr

/-- Errors the ledger surfaces to its caller (spec §7).  `UnknownReservation`
is an idempotent no-op per §7 ("not surfaced as an error to the caller"), so
it does not appear here. -/
inductive LedgerErr
  | insufficientCredits
deriving DecidableEq, Repr

/-- Equality of `Except` results is decidable when both components' is. -/
instance {ε α : Type} [DecidableEq ε] [DecidableEq α] :
    DecidableEq (Except ε α) := fun x y =>
  match x, y with
  | .ok a, .ok b =>
    if h : a = b then .isTrue (by rw [h]) else .isFalse (by simp [h])
  | .error a, .error b =>
    if h : a = b then .isTrue (by rw [h]) else .isFalse (by simp [h])
  | .ok _, .error _ => .isFalse (by simp)
  | .error _, .ok _ => .isFalse (by simp)

/-- The sum of all open reservations of the ledger state. -/
def sumOpen (s : LedgerState) : Nat :=
  (s.reservations.map (fun r => if r.isOpen then r.amount else 0)).sum

/-- The available balance: balance minus the sum of open reservations. -/
def available (s : LedgerState) : Nat :=
  s.balance - sumOpen s

/-- Modelled from the spec: `reserve(org_id, amount)` (§4.1) fails with
`InsufficientCredits` if `balance - sum(open reservations) < amount`;
otherwise it creates a reservation and returns its id. -/
def reserve (s : LedgerState) (amount : Nat) : Except LedgerErr (Nat × LedgerState) :=
  if sumOpen s + amount ≤ s.balance then
    .ok (s.nextId,
      { s with
        reservations := s.reservations ++ [⟨s.nextId, amount, true⟩]
        nextId := s.nextId + 1 })
  else
    .error .insufficientCredits

/-- The first open reservation with the given id, if any. -/
def findOpen (s : LedgerState) (rid : Nat) : Option Reservation :=
  s.reservations.find? (fun r => r.rid == rid && r.isOpen)

/-- Mark every reservation with the given id as resolved. -/
def resolveRes (l : List Reservation) (rid : Nat) : List Reservation :=
  l.map (fun r => if r.rid = rid then { r with isOpen := false } else r)

/-- Modelled from the spec: `charge(reservation_id, actual_amount)` (§4.1)
converts an open reservation into a permanent deduction; `actual_amount` may
be ≤ the reserved amount, and the unused portion is released back (the
deduction is clamped to the reserved amount, since the spec only provides
for charges up to the reservation).  A charge against a missing or
already-resolved reservation is an idempotent no-op (§7,
`UnknownReservation`). -/
def charge (s : LedgerState) (rid : Nat) (actual : Nat) : LedgerState :=
  match findOpen s rid with
  | none => s
  | some r =>
    { s with
      balance := s.balance - min actual r.amount
      reservations := resolveRes s.reservations rid }

/-- Modelled from the spec: `release(reservation_id)` (§4.1) cancels an open
reservation without charging; a release of a missing or already-resolved
reservation is an idempotent no-op (§7). -/
def release (s : LedgerState) (rid : Nat) : LedgerState :=
  match findOpen s rid with
  | none => s
  | some _ => { s with reservations := resolveRes s.reservations rid }

/-- One ledger operation of the kind claim C1 quantifies over. -/
inductive LedgerOp
  | reserveOp (amount : Nat)
  | chargeOp (rid : Nat) (actual : Nat)
  | releaseOp (rid : Nat)
deriving DecidableEq, Repr

/-- Apply one operation; a failed reserve leaves the state unchanged. -/
def applyOp (s : LedgerState) : LedgerOp → LedgerState
  | .reserveOp a =>
    match reserve s a with
    | .ok (_, s') => s'
    | .error _ => s
  | .chargeOp rid a => charge s rid a
  | .releaseOp rid => release s rid

/-- Run a sequence of ledger operations (per-organization serialization per
§5 makes any interleaving a sequence). -/
def runOps (s : LedgerState) (ops : List LedgerOp) : LedgerState :=
  ops.foldl applyOp s

/-- The ledger invariant of §3: the sum of all open reservations never
exceeds the balance. -/
def ledgerInv (s : LedgerState) : Prop :=
  sumOpen s ≤ s.balance

instance : DecidablePred ledgerInv := fun s =>
  inferInstanceAs (Decidable (sumOpen s ≤ s.balance))

/-! ### Ledger lemmas -/

/-- The open amount a single reservation contributes. -/
def openAmt (r : Reservation) : Nat :=
  if r.isOpen then r.amount else 0

/-- The open amount a single reservation contributes if it carries id `rid`. -/
def openAmtAt (rid : Nat) (r : Reservation) : Nat :=
  if r.rid = rid ∧ r.isOpen = true then r.amount else 0

theorem sumOpen_eq_map (s : LedgerState) :
    sumOpen s = (s.reservations.map openAmt).sum := by
  rfl

theorem openAmtAt_le_openAmt (rid : Nat) (r : Reservation) :
    openAmtAt rid r ≤ openAmt r := by
  unfold openAmt openAmtAt
  by_cases h1 : r.rid = rid <;> by_cases h2 : r.isOpen <;> simp_all

theorem openAmt_resolve_one (rid : Nat) (a : Reservation) :
    openAmt (if a.rid = rid then { a with isOpen := false } else a)
      = openAmt a - openAmtAt rid a := by
  by_cases h1 : a.rid = rid <;> by_cases h2 : a.isOpen <;>
    simp [openAmt, openAmtAt, h1, h2]

theorem resolveRes_map_openAmt (l : List Reservation) (rid : Nat) :
    ((resolveRes l rid).map openAmt).sum
      = (l.map openAmt).sum - (l.map (openAmtAt rid)).sum := by
  induction l with
  | nil => simp [resolveRes]
  | cons a t ih =>
    have hle : (t.map (openAmtAt rid)).sum ≤ (t.map openAmt).sum :=
      List.sum_le_sum fun r _ => openAmtAt_le_openAmt rid r
    have ha : openAmtAt rid a ≤ openAmt a := openAmtAt_le_openAmt rid a
    have hcons : resolveRes (a :: t) rid
        = (if a.rid = rid then { a with isOpen := false } else a)
            :: resolveRes t rid := by
      simp [resolveRes]
    rw [hcons, List.map_cons, List.sum_cons, openAmt_resolve_one, ih,
      List.map_cons, List.sum_cons, List.map_cons, List.sum_cons]
    omega

theorem sum_openAmtAt_le_sumOpen (l : List Reservation) (rid : Nat) :
    (l.map (openAmtAt rid)).sum ≤ (l.map openAmt).sum :=
  List.sum_le_sum fun r _ => openAmtAt_le_openAmt rid r

theorem findOpen_spec (s : LedgerState) (rid : Nat) (r : Reservation)
    (h : findOpen s rid = some r) :
    r ∈ s.reservations ∧ r.rid = rid ∧ r.isOpen = true := by
  have h1 := List.find?_some h
  have h2 := List.mem_of_find?_eq_some h
  simp only [Bool.and_eq_true, beq_iff_eq] at h1
  exact ⟨h2, h1.1, h1.2⟩

theorem amount_le_openAmtAt_sum (l : List Reservation) (rid : Nat)
    (r : Reservation) (hmem : r ∈ l) (hr : r.rid = rid) (ho : r.isOpen = true) :
    r.amount ≤ (l.map (openAmtAt rid)).sum := by
  have : openAmtAt rid r = r.amount := by simp [openAmtAt, hr, ho]
  calc r.amount = openAmtAt rid r := this.symm
    _ ≤ (l.map (openAmtAt rid)).sum :=
        List.le_sum_of_mem (List.mem_map_of_mem (openAmtAt rid) hmem)

theorem reserve_preserves (s : LedgerState) (a : Nat) (h : ledgerInv s) :
    ledgerInv (applyOp s (.reserveOp a)) := by
  unfold applyOp reserve
  by_cases hc : sumOpen s + a ≤ s.balance
  · simp only [hc, if_pos]
    unfold ledgerInv at *
    simp only [sumOpen, List.map_append, List.sum_append] at *
    simpa using hc
  · simp only [hc, if_neg, not_false_iff]
    exact h

theorem charge_preserves (s : LedgerState) (rid a : Nat) (h : ledgerInv s) :
    ledgerInv (charge s rid a) := by
  unfold charge
  cases hf : findOpen s rid with
  | none => exact h
  | some r =>
    obtain ⟨hmem, hr, ho⟩ := findOpen_spec s rid r hf
    unfold ledgerInv at *
    rw [sumOpen_eq_map] at *
    simp only [resolveRes_map_openAmt]
    have h1 : r.amount ≤ (s.reservations.map (openAmtAt rid)).sum :=
      amount_le_openAmtAt_sum s.reservations rid r hmem hr ho
    have h2 : (s.reservations.map (openAmtAt rid)).sum
        ≤ (s.reservations.map openAmt).sum :=
      sum_openAmtAt_le_sumOpen s.reservations rid
    have h3 : min a r.amount ≤ r.amount := Nat.min_le_right a r.amount
    omega

theorem release_preserves (s : LedgerState) (rid : Nat) (h : ledgerInv s) :
    ledgerInv (release s rid) := by
  unfold release
  cases hf : findOpen s rid with
  | none => exact h
  | some r =>
    unfold ledgerInv at *
    rw [sumOpen_eq_map] at *
    simp only [resolveRes_map_openAmt]
    have h2 : (s.reservations.map (openAmtAt rid)).sum
        ≤ (s.reservations.map openAmt).sum :=
      sum_openAmtAt_le_sumOpen s.reservations rid
    omega

theorem applyOp_preserves (s : LedgerState) (op : LedgerOp) (h : ledgerInv s) :
    ledgerInv (applyOp s op) := by
  cases op with
  | reserveOp a => exact reserve_preserves s a h
  | chargeOp rid a => exact charge_preserves s rid a h
  | releaseOp rid => exact release_preserves s rid h

/-- C1: for every organization, under any interleaving (sequence, since the
ledger serializes per organization) of reserve, charge and release
operations, the sum of open reservations never exceeds the balance — i.e.
`balance - Σ(open reservations)` never goes negative. -/
theorem ledger_invariant_preserved (s : LedgerState) (ops : List LedgerOp)
    (h : ledgerInv s) : ledgerInv (runOps s ops) := by
  induction ops generalizing s with
  | nil => exact h
  | cons op t ih =>
    rw [runOps, List.foldl_cons]
    exact ih (applyOp s op) (applyOp_preserves s op h)

/-- Witness for C1: a fresh organization with balance 1000 keeps the
invariant across a concrete run of reserve, charge and release calls. -/
theorem ledger_invariant_preserved_witness :
    ledgerInv (runOps ⟨1000, [], 0⟩
      [.reserveOp 500, .reserveOp 600, .chargeOp 0 300, .reserveOp 600,
       .releaseOp 1, .chargeOp 1 100]) :=
  ledger_invariant_preserved ⟨1000, [], 0⟩ _ (by decide)

theorem findOpen_resolveRes (l : List Reservation) (rid : Nat) :
    (resolveRes l rid).find? (fun r => r.rid == rid && r.isOpen) = none := by
  rw [List.find?_eq_none]
  intro x hx
  rw [resolveRes, List.mem_map] at hx
  obtain ⟨r, _, rfl⟩ := hx
  by_cases h1 : r.rid = rid <;> simp [h1]

theorem charge_of_findOpen_none (s : LedgerState) (rid a : Nat)
    (h : findOpen s rid = none) : charge s rid a = s := by
  simp [charge, h]

theorem release_of_findOpen_none (s : LedgerState) (rid : Nat)
    (h : findOpen s rid = none) : release s rid = s := by
  simp [release, h]

theorem findOpen_charge_resolved (s : LedgerState) (rid a : Nat)
    (r : Reservation) (h : findOpen s rid = some r) :
    findOpen (charge s rid a) rid = none := by
  unfold charge
  rw [h]
  exact findOpen_resolveRes s.reservations rid

theorem findOpen_release_resolved (s : LedgerState) (rid : Nat)
    (r : Reservation) (h : findOpen s rid = some r) :
    findOpen (release s rid) rid = none := by
  unfold release
  rw [h]
  exact findOpen_resolveRes s.reservations rid

/-- C5: `charge` and `release` are idempotent — a second resolution of the
same reservation id, by either operation, is a no-op on the organization's
balance and reservations, not an error (the ledger's resolution operations
return the state unchanged for an already-resolved reservation). -/
theorem charge_release_idempotent (s : LedgerState) (rid a : Nat) :
    charge (charge s rid a) rid a = charge s rid a
  ∧ release (release s rid) rid = release s rid
  ∧ charge (release s rid) rid a = release s rid
  ∧ release (charge s rid a) rid = charge s rid a := by
  cases hf : findOpen s rid with
  | none =>
    have hc := charge_of_findOpen_none s rid a hf
    have hr := release_of_findOpen_none s rid hf
    exact ⟨by simp only [hc], by simp only [hr], by simp only [hr, hc],
      by simp only [hc, hr]⟩
  | some r =>
    have hcn := findOpen_charge_resolved s rid a r hf
    have hrn := findOpen_release_resolved s rid r hf
    exact ⟨charge_of_findOpen_none _ rid a hcn,
      release_of_findOpen_none _ rid hrn,
      charge_of_findOpen_none _ rid a hrn,
      release_of_findOpen_none _ rid hcn⟩

/-- C4: the §8 scenario — an organization with balance 1000 and no open
reservations: reserve(500) succeeds with id 0 and leaves available balance
500; reserve(600) then fails with `InsufficientCredits`; charging the first
reservation with actual amount 300 leaves the balance at 700 (the unused
200 of the reserved 500 are released back) and resolves the reservation. -/
theorem ledger_scenario_1000 :
    reserve ⟨1000, [], 0⟩ 500
      = .ok (0, ⟨1000, [⟨0, 500, true⟩], 1⟩)
  ∧ available ⟨1000, [⟨0, 500, true⟩], 1⟩ = 500
  ∧ reserve ⟨1000, [⟨0, 500, true⟩], 1⟩ 600 = .error .insufficientCredits
  ∧ charge ⟨1000, [⟨0, 500, true⟩], 1⟩ 0 300 = ⟨700, [⟨0, 500, false⟩], 1⟩
  ∧ available ⟨700, [⟨0, 500, false⟩], 1⟩ = 700 :=
  ⟨rfl, rfl, rfl, rfl, rfl⟩

/-! ## Bot State Machine (spec §4.2)

Modelled from the spec: the bot lifecycle state machine is not implemented
in the repository (TESTING_NOTES lists bot controller logic as planned;
`admin-ui/src/api/types.ts` only declares a `Bot` record whose `status` is
one of starting/in_meeting/ended/error, a subset of §3's state set), so the
transition function is modelled from §4.2's graph.  Stale-bot reclamation
is the system's only unsolicited (driver-less) transition and is not a
*requested* transition, so it is outside this request-driven model. -/

/-- The bot lifecycle states of §3. -/
inductive BotState
  | created
  | starting
  | joining
  | inMeeting
  | recording
  | leaving
  | ended
  | error
deriving DecidableEq, Repr, Fintype

/-- The requested transitions / driver callbacks that drive §4.2's graph. -/
inductive BotEvent
  | joinRequest
  | driverAckLaunch
  | driverConfirmPresence
  | driverJoinFailure
  | startRecordingRequest
  | leaveRequest
  | driverConfirmDeparture
  | driverFatalFailure
deriving DecidableEq, Repr, Fintype

/-- State machine errors (spec §7). -/
inductive TransErr
  | invalidTransition
  | terminalState
deriving DecidableEq, Repr, Fintype

/-- `ended` and `error` are the terminal states (§3, §4.2). -/
def isTerminal : BotState → Bool
  | .ended => true
  | .error => true
  | _ => false

/-- Modelled from the spec: §4.2's transition function.  A request at a
terminal state fails with `TerminalState`; a request with no solid arrow in
the graph fails with `InvalidTransition`; otherwise the move succeeds. -/
def transition (s : BotState) (e : BotEvent) : Except TransErr BotState :=
  if isTerminal s then .error .terminalState
  else
    match s, e with
    | .created, .joinRequest => .ok .starting
    | .starting, .driverAckLaunch => .ok .joining
    | .joining, .driverConfirmPresence => .ok .inMeeting
    | .joining, .driverJoinFailure => .ok .error
    | .inMeeting, .startRecordingRequest => .ok .recording
    | .inMeeting, .leaveRequest => .ok .leaving
    | .recording, .leaveRequest => .ok .leaving
    | .leaving, .driverConfirmDeparture => .ok .ended
    | .inMeeting, .driverFatalFailure => .ok .error
    | .recording, .driverFatalFailure => .ok .error
    | .leaving, .driverFatalFailure => .ok .error
    | _, _ => .error .invalidTransition

/-- The Bot record (from `admin-ui/src/api/types.ts` `Bot` and §3): identity,
lifecycle state and heartbeat timestamp; the remaining fields (platform,
meeting_url, metadata) do not participate in the claims.  Named
`MeetingBot` because `Bot` is already taken by Mathlib's order class. -/
structure MeetingBot where
  id : String
  state : BotState
  heartbeatAt : Nat
deriving DecidableEq, Repr

/-- Apply a requested transition to a bot: on success the state advances;
on failure the bot is returned unchanged together with the error. -/
def applyRequest (b : MeetingBot) (e : BotEvent) : MeetingBot × Option TransErr :=
  match transition b.state e with
  | .ok s' => ({ b with state := s' }, none)
  | .error err => (b, some err)

/-- §4.2's graph as a list of solid arrows (source, target). -/
def legalEdges : List (BotState × BotState) :=
  [(.created, .starting), (.starting, .joining), (.joining, .inMeeting),
   (.joining, .error), (.inMeeting, .recording), (.inMeeting, .leaving),
   (.recording, .leaving), (.leaving, .ended), (.inMeeting, .error),
   (.recording, .error), (.leaving, .error)]

/-- All eight bot states of §3. -/
def allBotStates : List BotState :=
  [.created, .starting, .joining, .inMeeting, .recording, .leaving,
   .ended, .error]

theorem transition_sound (s : BotState) (e : BotEvent) :
    (∀ s', transition s e = .ok s' → (s, s') ∈ legalEdges ∧ s' ∈ allBotStates)
  ∧ (isTerminal s = false →
      ∀ err, transition s e = .error err → err = .invalidTransition)
  ∧ (isTerminal s = true → transition s e = .error .terminalState) := by
  cases s <;> cases e <;> decide

theorem applyRequest_error_frame (b : MeetingBot) (e : BotEvent) (err : TransErr)
    (h : transition b.state e = .error err) :
    applyRequest b e = (b, some err) := by
  simp [applyRequest, h]

/-- C2 counterexample: the claim says every requested transition outside
§4.2's graph returns `InvalidTransition`, but a requested transition from
the terminal state `ended` (not in the graph) returns `TerminalState`
instead — per §4.2's own terminal-state rule — at the concrete input
(`ended`, join request). -/
theorem requested_transition_terminal_counterexample :
    transition .ended .joinRequest = .error .terminalState
  ∧ Except.error TransErr.terminalState
      ≠ (Except.error TransErr.invalidTransition : Except TransErr BotState)
  ∧ applyRequest ⟨"bot-1", .ended, 0⟩ .joinRequest
      = (⟨"bot-1", .ended, 0⟩, some .terminalState) :=
  ⟨rfl, by decide, rfl⟩

/-- C2 (amended): every bot state is one of §3's eight states; every
successful requested transition follows a solid arrow of §4.2's graph; a
failed request leaves the bot unchanged and returns `InvalidTransition`
when the bot is non-terminal, while requests at the terminal states
`ended`/`error` fail with `TerminalState` (also leaving the state
unchanged). -/
theorem requested_transitions_follow_graph (b : MeetingBot) (e : BotEvent) :
    b.state ∈ allBotStates
  ∧ (∀ s', transition b.state e = .ok s' →
      (b.state, s') ∈ legalEdges ∧ s' ∈ allBotStates)
  ∧ (∀ err, transition b.state e = .error err → applyRequest b e = (b, some err))
  ∧ (isTerminal b.state = false →
      ∀ err, transition b.state e = .error err → err = .invalidTransition)
  ∧ (isTerminal b.state = true →
      transition b.state e = .error .terminalState) := by
  obtain ⟨h1, h2, h3⟩ := transition_sound b.state e
  refine ⟨?_, h1, fun err h => applyRequest_error_frame b e err h, h2, h3⟩
  cases hb : b.state <;> decide

/-- C7: from a terminal state (`ended` or `error`) every requested
transition fails with `TerminalState` and the bot record is unchanged. -/
theorem terminal_requests_fail (b : MeetingBot) (e : BotEvent)
    (h : isTerminal b.state = true) :
    applyRequest b e = (b, some .terminalState) := by
  have ht : transition b.state e = .error .terminalState := by
    unfold transition
    rw [h]
    simp
  exact applyRequest_error_frame b e _ ht

/-- Witness for C7: a concrete bot in `ended` rejects a leave request with
`TerminalState` and stays unchanged. -/
theorem terminal_requests_fail_witness :
    applyRequest ⟨"bot-42", .ended, 17⟩ .leaveRequest
      = (⟨"bot-42", .ended, 17⟩, some .terminalState) :=
  terminal_requests_fail ⟨"bot-42", .ended, 17⟩ .leaveRequest rfl

/-! ## Webhook Dispatcher (spec §4.3)

Modelled from the spec: the webhook delivery system is not implemented in
the repository (TESTING_NOTES lists it as planned; `admin-ui/src/api/types.ts`
declares a `WebhookDelivery` view with statuses success/failed/pending
only), so the delivery record, the delivery loop's attempt processing, the
exponential backoff and the manual retry are modelled from §4.3.  A worker
attempt is one atomic step here; §5 guarantees a delivery is never retried
concurrently against itself, so a delivery's history is a sequence of
attempts. -/

/-- The delivery statuses of §3: pending, in_flight, success, failed,
dead. -/
inductive DeliveryStatus
  | pending
  | inFlight
  | success
  | failed
  | dead
deriving DecidableEq, Repr

/-- Modelled from the spec: a Webhook Delivery row (§3) — identity,
subscription reference, event type, immutable payload, status,
`attempt_count`, `next_attempt_at`, and the last HTTP response code. -/
structure Delivery where
  id : Nat
  subscriptionId : Nat
  eventType : String
  payload : String
  status : DeliveryStatus
  attemptCount : Nat
  nextAttemptAt : Nat
  lastResponseCode : Option Nat
deriving DecidableEq, Repr

/-- Modelled from the spec: dispatcher configuration — `max_attempts`
(default 5), the backoff base interval and the backoff cap (§4.3). -/
structure DispatchCfg where
  maxAttempts : Nat
  base : Nat
  maxInterval : Nat
deriving DecidableEq, Repr

/-- Modelled from the spec: exponential backoff with jitter, a pure function
of the attempt count (§9) — `base * 2^attempt * (0.5 + rand(0,0.5))` capped
at a max interval; the random factor is passed in as `jitter` and scaled to
the integer factor `(50 + jitter % 50) / 100` ∈ [0.5, 1). -/
def backoff (cfg : DispatchCfg) (attempt : Nat) (jitter : Nat) : Nat :=
  min cfg.maxInterval (cfg.base * 2 ^ attempt * (50 + jitter % 50) / 100)

/-- Whether an HTTP response (none = network error / timeout) is a 2xx. -/
def is2xx : Option Nat → Bool
  | some c => decide (200 ≤ c) && decide (c < 300)
  | none => false

/-- Modelled from the spec: the delivery loop's processing of one due
delivery (§4.3).  Only a pending delivery is attempted (the loop pulls from
the pending/due queue).  On 2xx: mark `success`.  Otherwise increment
`attempt_count`; while `attempt_count < max_attempts` schedule
`next_attempt_at = now + backoff(attempt_count)` and set the status back to
`pending`; once the budget is exhausted set the status to `dead`. -/
def attemptDelivery (cfg : DispatchCfg) (d : Delivery) (now : Nat)
    (code : Option Nat) (jitter : Nat) : Delivery :=
  if d.status = .pending then
    if is2xx code then
      { d with
        status := .success
        attemptCount := d.attemptCount + 1
        lastResponseCode := code }
    else if d.attemptCount + 1 < cfg.maxAttempts then
      { d with
        status := .pending
        attemptCount := d.attemptCount + 1
        nextAttemptAt := now + backoff cfg (d.attemptCount + 1) jitter
        lastResponseCode := code }
    else
      { d with
        status := .dead
        attemptCount := d.attemptCount + 1
        lastResponseCode := code }
  else d

/-- Modelled from the spec: `retry(delivery_id)` — the manual operator
action of §4.3 — resets a `dead`/`failed` delivery to `pending` with
`attempt_count` (and every other field) unchanged. -/
def retryDelivery (d : Delivery) : Delivery :=
  if d.status = .dead ∨ d.status = .failed then { d with status := .pending }
  else d

/-- The delivery's state after `k` attempts that all fail: attempt `k+1` is
performed at time `t k` with response `c k` and jitter `j k`. -/
def failTrace (cfg : DispatchCfg) (d0 : Delivery) (t j : Nat → Nat)
    (c : Nat → Option Nat) : Nat → Delivery
  | 0 => d0
  | k + 1 => attemptDelivery cfg (failTrace cfg d0 t j c k) (t k) (c k) (j k)

theorem backoff_pos (cfg : DispatchCfg) (attempt jitter : Nat)
    (hbase : 2 ≤ cfg.base) (hcap : 0 < cfg.maxInterval) :
    0 < backoff cfg attempt jitter := by
  unfold backoff
  rw [lt_min_iff]
  refine ⟨hcap, ?_⟩
  have h2 : 1 ≤ 2 ^ attempt := Nat.one_le_two_pow
  have h3 : 50 ≤ 50 + jitter % 50 := Nat.le_add_right 50 _
  have h100 : 100 ≤ cfg.base * 2 ^ attempt * (50 + jitter % 50) := by
    calc 100 = 2 * 1 * 50 := by norm_num
      _ ≤ cfg.base * 2 ^ attempt * (50 + jitter % 50) :=
        Nat.mul_le_mul (Nat.mul_le_mul hbase h2) h3
  exact Nat.div_pos h100 (by norm_num)

theorem failTrace_invariant (cfg : DispatchCfg) (d0 : Delivery)
    (t j : Nat → Nat) (c : Nat → Option Nat)
    (hmax : 0 < cfg.maxAttempts)
    (hd0 : d0.status = .pending) (ha0 : d0.attemptCount = 0)
    (hfail : ∀ k, k < cfg.maxAttempts → is2xx (c k) = false) :
    ∀ k, k ≤ cfg.maxAttempts →
      (failTrace cfg d0 t j c k).attemptCount = k
      ∧ (k < cfg.maxAttempts → (failTrace cfg d0 t j c k).status = .pending)
      ∧ (k = cfg.maxAttempts → (failTrace cfg d0 t j c k).status = .dead) := by
  intro k
  induction k with
  | zero =>
    intro _
    exact ⟨ha0, fun _ => hd0, fun h0 => absurd h0.symm (Nat.ne_of_gt hmax)⟩
  | succ k ih =>
    intro hk1
    have hk : k < cfg.maxAttempts := Nat.lt_of_succ_le hk1
    obtain ⟨hcount, hpend, _⟩ := ih (Nat.le_of_lt hk)
    have hp := hpend hk
    constructor
    · by_cases hlt : k + 1 < cfg.maxAttempts <;>
        simp [failTrace, attemptDelivery, hp, hfail k hk, hcount, hlt]
    constructor
    · intro hlt
      simp [failTrace, attemptDelivery, hp, hfail k hk, hcount, hlt]
    · intro heq
      have : ¬ (k + 1 < cfg.maxAttempts) := by omega
      simp [failTrace, attemptDelivery, hp, hfail k hk, hcount, this]

/-- C3: a delivery whose every attempt fails (network error or non-2xx)
reaches status `dead` after exactly `max_attempts` attempts — it is still
`pending` (never dead, never dropped) after every earlier attempt, its
`attempt_count` ends at exactly `max_attempts`, and `next_attempt_at` is
strictly increasing between consecutive scheduled attempts.  The dead row
remains in the store (the model never deletes it), so it is surfaced rather
than silently dropped. -/
theorem delivery_dead_after_max (cfg : DispatchCfg) (d0 : Delivery)
    (t j : Nat → Nat) (c : Nat → Option Nat)
    (hbase : 2 ≤ cfg.base) (hcap : 0 < cfg.maxInterval)
    (hmax : 0 < cfg.maxAttempts)
    (hd0 : d0.status = .pending) (ha0 : d0.attemptCount = 0)
    (hfail : ∀ k, k < cfg.maxAttempts → is2xx (c k) = false)
    (hdue : ∀ k, k < cfg.maxAttempts →
      (failTrace cfg d0 t j c k).nextAttemptAt ≤ t k) :
    (failTrace cfg d0 t j c cfg.maxAttempts).status = .dead
  ∧ (failTrace cfg d0 t j c cfg.maxAttempts).attemptCount = cfg.maxAttempts
  ∧ (∀ k, k < cfg.maxAttempts → (failTrace cfg d0 t j c k).status = .pending)
  ∧ (∀ k, k + 1 < cfg.maxAttempts →
      (failTrace cfg d0 t j c k).nextAttemptAt
        < (failTrace cfg d0 t j c (k + 1)).nextAttemptAt) := by
  have hinv := failTrace_invariant cfg d0 t j c hmax hd0 ha0 hfail
  refine ⟨(hinv cfg.maxAttempts le_rfl).2.2 rfl,
    (hinv cfg.maxAttempts le_rfl).1,
    fun k hk => (hinv k (Nat.le_of_lt hk)).2.1 hk, ?_⟩
  intro k hk1
  have hk : k < cfg.maxAttempts := by omega
  obtain ⟨hcount, hpend, _⟩ := hinv k (Nat.le_of_lt hk)
  have hp := hpend hk
  have hb : 0 < backoff cfg (k + 1) (j k) :=
    backoff_pos cfg (k + 1) (j k) hbase hcap
  have hd := hdue k hk
  simp [failTrace, attemptDelivery, hp, hfail k hk, hcount, hk1]
  omega

/-- Witness for C3: with the default budget of 5 attempts, base 2 and cap
1000, a concrete delivery that receives HTTP 500 on every attempt is dead
after exactly 5 attempts, pending before that, with strictly increasing
`next_attempt_at`. -/
theorem delivery_dead_after_max_witness :
    (failTrace ⟨5, 2, 1000⟩ ⟨1, 1, "bot.ended", "p", .pending, 0, 0, none⟩
      (fun k => (k + 1) * 2000) (fun _ => 0) (fun _ => some 500) 5).status
        = .dead
  ∧ (failTrace ⟨5, 2, 1000⟩ ⟨1, 1, "bot.ended", "p", .pending, 0, 0, none⟩
      (fun k => (k + 1) * 2000) (fun _ => 0) (fun _ => some 500)
      5).attemptCount = 5
  ∧ (∀ k, k < 5 →
      (failTrace ⟨5, 2, 1000⟩ ⟨1, 1, "bot.ended", "p", .pending, 0, 0, none⟩
        (fun k => (k + 1) * 2000) (fun _ => 0) (fun _ => some 500) k).status
          = .pending)
  ∧ (∀ k, k + 1 < 5 →
      (failTrace ⟨5, 2, 1000⟩ ⟨1, 1, "bot.ended", "p", .pending, 0, 0, none⟩
        (fun k => (k + 1) * 2000) (fun _ => 0) (fun _ => some 500)
        k).nextAttemptAt
      < (failTrace ⟨5, 2, 1000⟩ ⟨1, 1, "bot.ended", "p", .pending, 0, 0, none⟩
        (fun k => (k + 1) * 2000) (fun _ => 0) (fun _ => some 500)
        (k + 1)).nextAttemptAt) :=
  delivery_dead_after_max ⟨5, 2, 1000⟩
    ⟨1, 1, "bot.ended", "p", .pending, 0, 0, none⟩
    (fun k => (k + 1) * 2000) (fun _ => 0) (fun _ => some 500)
    (by decide) (by decide) (by decide) rfl rfl
    (by decide) (by decide)

/-- C6 counterexample: `dead` is not terminal for every operation — the
manual operator retry of §4.3 changes a concrete dead delivery, resetting
its status to `pending`. -/
theorem dead_delivery_retried_counterexample :
    retryDelivery ⟨1, 1, "bot.ended", "p", .dead, 5, 0, some 500⟩
      ≠ ⟨1, 1, "bot.ended", "p", .dead, 5, 0, some 500⟩
  ∧ (retryDelivery ⟨1, 1, "bot.ended", "p", .dead, 5, 0, some 500⟩).status
      = .pending := by
  refine ⟨?_, rfl⟩
  intro h
  have := congrArg Delivery.status h
  simp [retryDelivery] at this

/-- C6 (amended): every delivery's status is one of
{pending, in_flight, success, failed, dead}; `success` is terminal under
every modelled operation (automatic attempt processing and manual retry
both leave a success delivery unchanged); `dead` is terminal for the
automatic delivery loop (attempts never change a dead delivery), though
the manual operator `retry` of §4.3 may reset a dead delivery to
`pending`. -/
theorem delivery_status_terminality (cfg : DispatchCfg) (d : Delivery)
    (now : Nat) (code : Option Nat) (jitter : Nat) :
    (d.status = .pending ∨ d.status = .inFlight ∨ d.status = .success
      ∨ d.status = .failed ∨ d.status = .dead)
  ∧ (d.status = .success →
      attemptDelivery cfg d now code jitter = d ∧ retryDelivery d = d)
  ∧ (d.status = .dead → attemptDelivery cfg d now code jitter = d) := by
  refine ⟨?_, fun h => ⟨?_, ?_⟩, fun h => ?_⟩
  · cases hs : d.status <;> simp
  · simp [attemptDelivery, h]
  · simp [retryDelivery, h]
  · simp [attemptDelivery, h]

/-- C9: the manual `retry(delivery_id)` on a `dead` or `failed` delivery
sets its status to `pending` and leaves `attempt_count` — and every other
field of the delivery — unchanged, so the backoff schedule continues rather
than restarting. -/
theorem retry_resets_to_pending (d : Delivery)
    (h : d.status = .dead ∨ d.status = .failed) :
    (retryDelivery d).status = .pending
  ∧ (retryDelivery d).attemptCount = d.attemptCount
  ∧ (retryDelivery d).id = d.id
  ∧ (retryDelivery d).subscriptionId = d.subscriptionId
  ∧ (retryDelivery d).eventType = d.eventType
  ∧ (retryDelivery d).payload = d.payload
  ∧ (retryDelivery d).nextAttemptAt = d.nextAttemptAt
  ∧ (retryDelivery d).lastResponseCode = d.lastResponseCode := by
  unfold retryDelivery
  rw [if_pos h]
  exact ⟨rfl, rfl, rfl, rfl, rfl, rfl, rfl, rfl⟩

/-- Witness for C9: retrying a concrete failed delivery with 3 attempts
leaves everything but the status unchanged. -/
theorem retry_resets_to_pending_witness :
    (retryDelivery ⟨2, 1, "bot.error", "pl", .failed, 3, 7, some 500⟩).status
        = .pending
  ∧ (retryDelivery
      ⟨2, 1, "bot.error", "pl", .failed, 3, 7, some 500⟩).attemptCount = 3
  ∧ (retryDelivery ⟨2, 1, "bot.error", "pl", .failed, 3, 7, some 500⟩).id = 2
  ∧ (retryDelivery
      ⟨2, 1, "bot.error", "pl", .failed, 3, 7, some 500⟩).subscriptionId = 1
  ∧ (retryDelivery
      ⟨2, 1, "bot.error", "pl", .failed, 3, 7, some 500⟩).eventType
        = "bot.error"
  ∧ (retryDelivery ⟨2, 1, "bot.error", "pl", .failed, 3, 7, some 500⟩).payload
      = "pl"
  ∧ (retryDelivery
      ⟨2, 1, "bot.error", "pl", .failed, 3, 7, some 500⟩).nextAttemptAt = 7
  ∧ (retryDelivery
      ⟨2, 1, "bot.error", "pl", .failed, 3, 7, some 500⟩).lastResponseCode
        = some 500 :=
  retry_resets_to_pending ⟨2, 1, "bot.error", "pl", .failed, 3, 7, some 500⟩
    (Or.inr rfl)

/-! ## Organization records and soft deletion (C8)

The `Organization` record is embedded from `admin-ui/src/api/types.ts`
(identity, name, status ∈ {active, suspended, inactive}, centicredits,
webhooks flag).  The administrative deletion endpoint the admin-ui's
`organizationsApi.deleteOrganization` calls is not implemented under the
repository's files, so it is modelled from the spec. -/

/-- The organization statuses of `types.ts` / §3. -/
inductive OrgStatus
  | active
  | suspended
  | inactive
deriving DecidableEq, Repr

/-- The Organization record of `admin-ui/src/api/types.ts` (lines 52–61):
id, name, status, centicredits balance, webhooks flag. -/
structure Organization where
  id : String
  name : String
  status : OrgStatus
  centicredits : Nat
  isWebhooksEnabled : Bool
deriving DecidableEq, Repr

/-- Modelled from the spec: organizations are "never hard-deleted (soft
status change only)" (§3), so administrative deletion only changes the
status of the matching organization; since the status set has no separate
deleted value, the soft delete marks it `inactive`.  No record is ever
removed from the store. -/
def deleteOrganization (store : List Organization) (orgId : String) :
    List Organization :=
  store.map (fun o => if o.id = orgId then { o with status := .inactive } else o)

/-- Retrieve an organization by id (first match). -/
def getOrganization (store : List Organization) (orgId : String) :
    Option Organization :=
  store.find? (fun o => o.id == orgId)

theorem getOrganization_delete (store : List Organization) (orgId : String)
    (o : Organization) (h : getOrganization store orgId = some o) :
    getOrganization (deleteOrganization store orgId) orgId
      = some { o with status := .inactive } := by
  induction store with
  | nil => simp [getOrganization] at h
  | cons a t ih =>
    rw [getOrganization, List.find?_cons] at h
    rw [deleteOrganization, List.map_cons]
    by_cases hpa : a.id = orgId
    · simp only [hpa, beq_self_eq_true] at h
      have ho : a = o := by
        simpa using h
      subst ho
      rw [getOrganization, List.find?_cons]
      simp [hpa]
    · have hb : (a.id == orgId) = false := by
        simpa using hpa
      rw [hb] at h
      have := ih h
      rw [getOrganization, List.find?_cons]
      simp only [hpa, if_neg, not_false_iff, hb]
      exact this

/-- C8: administrative deletion of an organization is a soft status change
only — no record is removed (the store keeps its length), every
organization keeps its identity, name, balance and webhooks flag, and the
deleted organization remains retrievable by id with its balance intact. -/
theorem delete_organization_soft (store : List Organization) (orgId : String) :
    (deleteOrganization store orgId).length = store.length
  ∧ (∀ o ∈ store, ∃ o' ∈ deleteOrganization store orgId,
      o'.id = o.id ∧ o'.name = o.name ∧ o'.centicredits = o.centicredits
        ∧ o'.isWebhooksEnabled = o.isWebhooksEnabled)
  ∧ (∀ o, getOrganization store orgId = some o →
      ∃ o', getOrganization (deleteOrganization store orgId) orgId = some o'
        ∧ o'.id = o.id ∧ o'.centicredits = o.centicredits) := by
  refine ⟨List.length_map store _, fun o ho => ?_, fun o h => ?_⟩
  · refine ⟨if o.id = orgId then { o with status := .inactive } else o,
      List.mem_map_of_mem _ ho, ?_⟩
    by_cases hid : o.id = orgId <;> simp [hid]
  · exact ⟨{ o with status := .inactive },
      getOrganization_delete store orgId o h, rfl, rfl⟩

/-! ## Admin-UI API client response interceptor (C10)

Embedded from the axios client in the repository (`apiClient` with
`interceptors.response.use`): the success handler logs in development and
returns the response; the error handler logs, and if
`error.response?.status === 401` removes the `auth_token` entry from
localStorage and sets `window.location.href = '/login'` (403 and ≥ 500 are
only logged), and always returns `Promise.reject(error)`. -/

/-- `localStorage.removeItem`: drop the entries with the given key. -/
def removeItem : List (String × String) → String → List (String × String)
  | [], _ => []
  | kv :: t, key =>
    if kv.1 = key then removeItem t key else kv :: removeItem t key

/-- `localStorage.getItem`: the value stored under the key, if any. -/
def getItem (storage : List (String × String)) (key : String) :
    Option String :=
  (storage.find? (fun kv => kv.1 == key)).map (fun kv => kv.2)

/-- The browser state the interceptor touches: localStorage and
`window.location.href`. -/
structure ClientState where
  storage : List (String × String)
  href : String
deriving DecidableEq, Repr

/-- An axios error: `error.response?.status` is `none` when no HTTP
response arrived (network error), `some code` otherwise. -/
structure AxiosError where
  responseStatus : Option Nat
deriving DecidableEq, Repr

/-- What an interceptor hands back to the promise chain. -/
inductive InterceptOutcome
  | resolvedResponse (status : Nat)
  | rejectedError (e : AxiosError)
deriving DecidableEq, Repr

/-- The error handler of `apiClient.interceptors.response.use`: on status
401 it removes `auth_token` and navigates to `/login`; in every case it
rejects the promise with the original error. -/
def onResponseError (st : ClientState) (e : AxiosError) :
    ClientState × InterceptOutcome :=
  let st' :=
    if e.responseStatus = some 401 then
      { storage := removeItem st.storage "auth_token", href := "/login" }
    else st
  (st', .rejectedError e)

/-- The success handler of `apiClient.interceptors.response.use`: it only
logs and returns the response unchanged. -/
def onResponseSuccess (st : ClientState) (status : Nat) :
    ClientState × InterceptOutcome :=
  (st, .resolvedResponse status)

theorem getItem_cons_hit (a : String × String) (t : List (String × String))
    (k : String) (h : (a.1 == k) = true) : getItem (a :: t) k = some a.2 := by
  rw [getItem, List.find?_cons, h]
  rfl

theorem getItem_cons_miss (a : String × String) (t : List (String × String))
    (k : String) (h : (a.1 == k) = false) : getItem (a :: t) k = getItem t k := by
  rw [getItem, List.find?_cons, h]
  rfl

theorem getItem_removeItem_self (l : List (String × String)) (key : String) :
    getItem (removeItem l key) key = none := by
  induction l with
  | nil => rfl
  | cons a t ih =>
    rw [removeItem]
    by_cases h : a.1 = key
    · rw [if_pos h]
      exact ih
    · rw [if_neg h, getItem_cons_miss a _ key (beq_eq_false_iff_ne.mpr h)]
      exact ih

theorem getItem_removeItem_other (l : List (String × String)) (key k : String)
    (hk : k ≠ key) : getItem (removeItem l key) k = getItem l k := by
  induction l with
  | nil => rfl
  | cons a t ih =>
    rw [removeItem]
    by_cases h : a.1 = key
    · have hak : (a.1 == k) = false := by
        rw [beq_eq_false_iff_ne, h]
        exact fun he => hk he.symm
      rw [if_pos h, getItem_cons_miss a t k hak]
      exact ih
    · rw [if_neg h]
      by_cases hak : a.1 = k
      · have hb : (a.1 == k) = true := beq_iff_eq.mpr hak
        rw [getItem_cons_hit a _ k hb, getItem_cons_hit a t k hb]
      · have hb : (a.1 == k) = false := beq_eq_false_iff_ne.mpr hak
        rw [getItem_cons_miss a _ k hb, getItem_cons_miss a t k hb]
        exact ih

/-- C10: for every response the admin-ui API client receives, the
interceptor removes the `auth_token` localStorage entry and navigates to
`/login` exactly when the error's response status is 401 (other entries are
untouched; non-401 errors leave the browser state unchanged), and in every
error case the promise is rejected with the original error — no API error
is silently swallowed.  The success handler returns the response unchanged
without touching the state. -/
theorem response_interceptor_behavior (st : ClientState) (e : AxiosError) :
    (onResponseError st e).2 = .rejectedError e
  ∧ (e.responseStatus = some 401 →
      getItem (onResponseError st e).1.storage "auth_token" = none
      ∧ (onResponseError st e).1.href = "/login"
      ∧ ∀ k, k ≠ "auth_token" →
          getItem (onResponseError st e).1.storage k = getItem st.storage k)
  ∧ (e.responseStatus ≠ some 401 → (onResponseError st e).1 = st)
  ∧ (∀ r, onResponseSuccess st r = (st, .resolvedResponse r)) := by
  refine ⟨rfl, fun h => ⟨?_, ?_, ?_⟩, fun h => ?_, fun r => rfl⟩
  · simp only [onResponseError, h, if_pos]
    exact getItem_removeItem_self st.storage "auth_token"
  · simp [onResponseError, h]
  · intro k hk
    simp only [onResponseError, h, if_pos]
    exact getItem_removeItem_other st.storage "auth_token" k hk
  · simp [onResponseError, h]

/-- Witness for C10: a concrete 401 error clears the stored token, keeps
the unrelated `theme` entry, navigates to `/login`, and the error is
rejected onward; a concrete 500 error leaves the state untouched. -/
theorem response_interceptor_behavior_witness :
    getItem (onResponseError
      ⟨[("auth_token", "tok"), ("theme", "dark")], "/home"⟩
      ⟨some 401⟩).1.storage "auth_token" = none
  ∧ (onResponseError ⟨[("auth_token", "tok"), ("theme", "dark")], "/home"⟩
      ⟨some 401⟩).1.href = "/login"
  ∧ getItem (onResponseError
      ⟨[("auth_token", "tok"), ("theme", "dark")], "/home"⟩
      ⟨some 401⟩).1.storage "theme" = some "dark"
  ∧ (onResponseError ⟨[("auth_token", "tok"), ("theme", "dark")], "/home"⟩
      ⟨some 401⟩).2 = .rejectedError ⟨some 401⟩
  ∧ (onResponseError ⟨[("auth_token", "tok"), ("theme", "dark")], "/home"⟩
      ⟨some 500⟩).1
      = ⟨[("auth_token", "tok"), ("theme", "dark")], "/home"⟩ := by
  have h401 := response_interceptor_behavior
    ⟨[("auth_token", "tok"), ("theme", "dark")], "/home"⟩ ⟨some 401⟩
  have h500 := response_interceptor_behavior
    ⟨[("auth_token", "tok"), ("theme", "dark")], "/home"⟩ ⟨some 500⟩
  refine ⟨(h401.2.1 rfl).1, (h401.2.1 rfl).2.1, ?_, h401.1, ?_⟩
  · have := (h401.2.1 rfl).2.2 "theme" (by decide)
    rw [this]
    rfl
  · exact h500.2.2.1 (by decide)
